import Mathlib

/-!
Shallow embedding of `scripts/add_companies.py` (ingestion pipeline for the
canonical companies dataset).  Strings are modelled as `List Char`; Python
string primitives (`strip`, `lower`, `upper`, `startswith`, `endswith`,
`rstrip`, `replace(old,new,1)`) are embedded below on that representation.
Regex character classes `\w` and `\s` are modelled over ASCII, which is the
character range actually exercised by the data format.
Float coordinates returned by the geocoder are modelled abstractly by their
decimal string representations (the pipeline only ever stores and compares
them, never computes with them).
The external geocoding service is modelled as an oracle `Geo` mapping a query
string to found / not-found / service-error; persisted state (the canonical
CSV file and the geocode cache file) is explicit in `PipelineState`.
-/

namespace AddCompanies

abbrev Str := List Char

/-- ASCII model of Python whitespace (the default `str.strip` class and
regex `\s`). -/
def isSpaceChar (c : Char) : Bool :=
  c == ' ' || c == '\t' || c == '\n' || c == '\r' || c == '\x0b' || c == '\x0c'

/-- Python `s.strip()`: drop leading and trailing whitespace. -/
def pyStrip (s : Str) : Str :=
  ((s.dropWhile isSpaceChar).reverse.dropWhile isSpaceChar).reverse

/-- Python `s.lower()` (ASCII model). -/
def pyLower (s : Str) : Str := s.map Char.toLower

/-- Python `s.upper()` (ASCII model). -/
def pyUpper (s : Str) : Str := s.map Char.toUpper

/-- Helper for `startsWithL`, recursing on the pattern. -/
def startsWithP : Str → Str → Bool
  | [], _ => true
  | _ :: _, [] => false
  | q :: ps, c :: rest => c == q && startsWithP ps rest

/-- Python `s.startswith(p)`. -/
def startsWithL (s p : Str) : Bool := startsWithP p s

/-- Python `s.endswith(p)`. -/
def endsWithL (s p : Str) : Bool := startsWithL s.reverse p.reverse

/-- Python `s.rstrip('/')`: drop all trailing slashes. -/
def rstripSlash (s : Str) : Str :=
  (s.reverse.dropWhile (fun c => c == '/')).reverse

/-- Python `s.strip('-')`: drop leading and trailing hyphens. -/
def stripHyphen (s : Str) : Str :=
  ((s.dropWhile (fun c => c == '-')).reverse.dropWhile (fun c => c == '-')).reverse

/-- Python `s.replace(old, new, 1)`: replace the leftmost occurrence of
`old` (an empty `old` inserts `new` at the front, as in Python). -/
def replaceFirst (s old new : Str) : Str :=
  match old with
  | [] => new ++ s
  | _ :: _ =>
    match s with
    | [] => []
    | c :: rest =>
      if startsWithL s old then new ++ s.drop old.length
      else c :: replaceFirst rest old new

/-- Decimal representation of a row number. -/
def natStr (n : Nat) : Str := Nat.toDigits 10 n

def httpSl : Str := ['h', 't', 't', 'p', ':', '/', '/']
def httpsSl : Str := ['h', 't', 't', 'p', 's', ':', '/', '/']

/-- `normalize_url` from the script: trim; prepend `https://` when no
`http(s)://` scheme is present; rewrite a leading `http://` to `https://`
(Python `replace(...full..., 1)`); finally `rstrip('/')`. -/
def normalize_url (url : Str) : Str :=
  let u := pyStrip url
  if u == [] then u
  else
    let u2 :=
      if !(startsWithL u httpSl || startsWithL u httpsSl) then httpsSl ++ u
      else if startsWithL u httpSl then replaceFirst u httpSl httpsSl
      else u
    rstripSlash u2

/-- Regex `\w` over ASCII: letters, digits, underscore. -/
def isWordChar (c : Char) : Bool := c.isAlphanum || c == '_'

/-- One pass of regex `re.sub(r'[-\s]+', '-', text)`: each maximal run of
hyphens/whitespace becomes a single hyphen.  The flag records whether the
previous character belonged to a run already rewritten. -/
def collapseRuns : Bool → Str → Str
  | _, [] => []
  | inRun, c :: rest =>
    if c == '-' || isSpaceChar c then
      if inRun then collapseRuns true rest else '-' :: collapseRuns true rest
    else c :: collapseRuns false rest

/-- `slugify` from the script: lowercase, drop characters outside
`[\w\s-]`, collapse `[-\s]+` runs to `-`, strip outer hyphens. -/
def slugify (text : Str) : Str :=
  let t1 := pyLower text
  let t2 := t1.filter (fun c => isWordChar c || isSpaceChar c || c == '-')
  stripHyphen (collapseRuns false t2)

/-- `generate_id`: `slug(name)-slug(city)`. -/
def generate_id (name city : Str) : Str :=
  slugify name ++ ['-'] ++ slugify city

/-- The corporate suffix list of `normalize_name`, in source order. -/
def corpSuffixes : List Str :=
  [" inc.".toList, " inc".toList, " ltd.".toList, " ltd".toList,
   " corp.".toList, " corp".toList, " llc".toList, " co.".toList, " co".toList]

/-- `normalize_name`: strip+lowercase, then for each suffix in order (the
Python loop has no break, so several may strip in sequence) remove it and
re-strip when the current name ends with it. -/
def normalize_name (name : Str) : Str :=
  corpSuffixes.foldl
    (fun n suf => if endsWithL n suf then pyStrip (n.take (n.length - suf.length)) else n)
    (pyLower (pyStrip name))

/-- A row of the incoming CSV as seen by `csv.DictReader`; a column absent
from the file is modelled as the empty string (observationally equal to the
`dict.get` behaviour on every access the script performs). -/
structure Row where
  name : Str
  url : Str
  industry : Str
  remote_policy : Str
  city : Str
  province : Str
  description : Str
  tags : Str
  hq_address : Str
deriving DecidableEq, Repr

/-- A record of the canonical dataset file (the 11 persisted columns); also
the shape of an element of `processed` (whose input-only `hq_address` key is
never read again and is dropped by the writer's column projection). -/
structure CompanyRec where
  id : Str
  name : Str
  url : Str
  description : Str
  industry : Str
  tags : Str
  remote_policy : Str
  city : Str
  province : Str
  lat : Str
  lng : Str
deriving DecidableEq, Repr

/-- `is_duplicate`: identifier match, or normalized (name, city, province)
triple match, against any record of the pool. -/
def is_duplicate (newc : CompanyRec) (pool : List CompanyRec) : Bool :=
  let nid := newc.id
  let nname := normalize_name newc.name
  let ncity := pyLower (pyStrip newc.city)
  let nprov := pyUpper (pyStrip newc.province)
  pool.any (fun e =>
    e.id == nid ||
    (normalize_name e.name == nname &&
     pyLower (pyStrip e.city) == ncity &&
     pyUpper (pyStrip e.province) == nprov))

def INDUSTRIES : List Str :=
  ["SaaS".toList, "Fintech".toList, "Healthtech".toList, "Ecommerce".toList,
   "Agency".toList, "Gaming".toList, "AI".toList, "Cleantech".toList,
   "Telecommunications".toList]

def REMOTE_POLICIES : List Str := ["Remote".toList, "Hybrid".toList, "Onsite".toList]

def PROVINCES : List Str :=
  ["AB".toList, "BC".toList, "MB".toList, "NB".toList, "NL".toList,
   "NS".toList, "NT".toList, "NU".toList, "ON".toList, "PE".toList,
   "QC".toList, "SK".toList, "YT".toList]

/-- `urlparse(u).netloc` on the strings `validate_company` actually feeds it
(outputs of `normalize_url`): the host part after `https://`, up to the next
`/`, `?` or `#`; empty when no `https://` is present. -/
def py_netloc (u : Str) : Str :=
  if startsWithL u httpsSl then
    (u.drop httpsSl.length).takeWhile (fun c => !(c == '/' || c == '?' || c == '#'))
  else []

def requiredFields : List Str :=
  ["name".toList, "url".toList, "industry".toList, "remote_policy".toList,
   "city".toList, "province".toList]

def getField (c : Row) (f : Str) : Str :=
  if f == "name".toList then c.name
  else if f == "url".toList then c.url
  else if f == "industry".toList then c.industry
  else if f == "remote_policy".toList then c.remote_policy
  else if f == "city".toList then c.city
  else if f == "province".toList then c.province
  else []

def missingMsg (f : Str) : Str := "Missing required field: ".toList ++ f

def industriesSorted : Str :=
  "AI, Agency, Cleantech, Ecommerce, Fintech, Gaming, Healthtech, SaaS, Telecommunications".toList

def policiesSorted : Str := "Hybrid, Onsite, Remote".toList

def provincesSorted : Str :=
  "AB, BC, MB, NB, NL, NS, NT, NU, ON, PE, QC, SK, YT".toList

/-- The required-field loop of `validate_company`: one error per required
field whose value is absent or blank, in field order. -/
def reqFieldErrs (c : Row) : List Str :=
  requiredFields.filterMap (fun f =>
    if pyStrip (getField c f) == [] then some (missingMsg f) else none)

/-- The URL section of `validate_company`, run only when the raw url is
truthy: scheme check on the normalized url, then host check via `urlparse`. -/
def urlFieldErrs (c : Row) : List Str :=
  if c.url == [] then [] else
    let u := normalize_url c.url
    (if startsWithL u httpsSl then [] else
      ["URL must start with https://: ".toList ++ c.url]) ++
    (if py_netloc u == [] then ["Invalid URL format: ".toList ++ c.url] else [])

/-- The industry enum section of `validate_company`. -/
def industryFieldErrs (c : Row) : List Str :=
  if c.industry == [] then [] else
    let i := pyStrip c.industry
    if i ∈ INDUSTRIES then [] else
      ["Invalid industry \x27".toList ++ i ++ "\x27. Must be one of: ".toList ++ industriesSorted]

/-- The remote-policy enum section of `validate_company`. -/
def policyFieldErrs (c : Row) : List Str :=
  if c.remote_policy == [] then [] else
    let p := pyStrip c.remote_policy
    if p ∈ REMOTE_POLICIES then [] else
      ["Invalid remote_policy \x27".toList ++ p ++ "\x27. Must be one of: ".toList ++ policiesSorted]

/-- The province enum section of `validate_company`. -/
def provinceFieldErrs (c : Row) : List Str :=
  if c.province == [] then [] else
    let p := pyUpper (pyStrip c.province)
    if p ∈ PROVINCES then [] else
      ["Invalid province \x27".toList ++ p ++ "\x27. Must be one of: ".toList ++ provincesSorted]

/-- `validate_company`: the required-field loop, then URL checks (only when
the raw url is truthy), then the three enum checks (each only when the raw
field is truthy).  The Python `except` arm around `urlparse` is unreachable
for string input and has no counterpart here. -/
def validate_company (c : Row) : List Str :=
  reqFieldErrs c ++ urlFieldErrs c ++ industryFieldErrs c ++
    policyFieldErrs c ++ provinceFieldErrs c

/-- A geocoder coordinate, abstracted as the decimal strings that
`str(lat)` / `str(lng)` would produce. -/
abbrev Coordv := Str × Str

/-- Outcome of one request to the external geocoding service. -/
inductive GeoResult where
  | found : Coordv → GeoResult
  | notFound : GeoResult
  | svcErr : Str → GeoResult
deriving DecidableEq, Repr

/-- The external geocoding service, as an oracle from query strings. -/
abbrev Geo := Str → GeoResult

/-- The geocode cache file: a JSON object, modelled as an insertion-ordered
association list from cache key to coordinate. -/
abbrev Cache := List (Str × Coordv)

def lookupA : Cache → Str → Option Coordv
  | [], _ => none
  | (k, v) :: rest, key => if k == key then some v else lookupA rest key

/-- JSON-object update `cache[key] = v`: replace in place, else append. -/
def insertA : Cache → Str → Coordv → Cache
  | [], key, v => [(key, v)]
  | (k, w) :: rest, key, v =>
    if k == key then (k, v) :: rest else (k, w) :: insertA rest key v

/-- `geocode_location`: cache lookup on `"city, province, Canada"` first;
on a miss, one service call on the query (address hint, when present, then
city, province, `Canada`, comma-joined); a successful miss immediately
persists the extended cache file.  Returns the outcome and the cache file
content after the call. -/
def geocode_location (geo : Geo) (cache : Cache) (city prov : Str)
    (hq : Option Str) : Except Str Coordv × Cache :=
  let query := List.intercalate ", ".toList
    ((match hq with | some a => [a] | none => []) ++ [city, prov, "Canada".toList])
  let key := city ++ ", ".toList ++ prov ++ ", Canada".toList
  match lookupA cache key with
  | some c => (Except.ok c, cache)
  | none =>
    match geo query with
    | GeoResult.found c => (Except.ok c, insertA cache key c)
    | GeoResult.notFound =>
        (Except.error ("Geocoding failed for: ".toList ++ query), cache)
    | GeoResult.svcErr m =>
        (Except.error ("Geocoding error for ".toList ++ query ++ ": ".toList ++ m), cache)

/-- The persisted state the pipeline touches: the canonical dataset file
(`none` when absent) and the geocode cache file. -/
structure PipelineState where
  csvFile : Option (List CompanyRec)
  cacheFile : Cache
deriving DecidableEq, Repr

/-- Reader filter: keep a row unless all its values are empty or its
trimmed name starts with `#`. -/
def keepRow (r : Row) : Bool :=
  (!(r.name == [] && r.url == [] && r.industry == [] && r.remote_policy == [] &&
     r.city == [] && r.province == [] && r.description == [] && r.tags == [] &&
     r.hq_address == [])) &&
  !(startsWithL (pyStrip r.name) ['#'])

def rowErrTag (idx : Nat) : Str := "Row ".toList ++ natStr (idx + 2) ++ ": ".toList

def dupMsg (c : CompanyRec) : Str :=
  "Duplicate company: ".toList ++ c.name ++ " in ".toList ++ c.city ++
  ", ".toList ++ c.province ++ " (id: ".toList ++ c.id ++ ")".toList

def dupBatchMsg (c : CompanyRec) : Str :=
  "Duplicate company in batch: ".toList ++ c.name ++ " in ".toList ++ c.city ++
  ", ".toList ++ c.province ++ " (id: ".toList ++ c.id ++ ")".toList

def geoMsg (c : CompanyRec) (e : Str) : Str :=
  "Geocoding failed for ".toList ++ c.name ++ " (".toList ++ c.city ++
  ", ".toList ++ c.province ++ "): ".toList ++ e

/-- The candidate record after the in-loop normalizations (url, id,
province) and before geocoding. -/
def mkCandidate (r : Row) : CompanyRec :=
  { id := generate_id r.name r.city
    name := r.name
    url := normalize_url r.url
    description := r.description
    industry := r.industry
    tags := r.tags
    remote_policy := r.remote_policy
    city := r.city
    province := pyUpper (pyStrip r.province)
    lat := []
    lng := [] }

/-- The per-company loop of `process_incoming_companies`: validate,
normalize, dedup against the existing dataset then against the batch,
geocode (threading the cache file), and accumulate errors with the
`Row {idx + 2}` tag computed from the position in the *filtered* list. -/
def processLoop (geo : Geo) (existing : List CompanyRec) :
    List Row → Nat → List CompanyRec → List Str → Cache →
    List CompanyRec × List Str × Cache
  | [], _, proc, errs, cache => (proc, errs, cache)
  | row :: rest, idx, proc, errs, cache =>
    let verrs := validate_company row
    if !verrs.isEmpty then
      processLoop geo existing rest (idx + 1) proc
        (errs ++ verrs.map (fun e => rowErrTag idx ++ e)) cache
    else
      let cand := mkCandidate row
      if is_duplicate cand existing then
        processLoop geo existing rest (idx + 1) proc (errs ++ [dupMsg cand]) cache
      else if is_duplicate cand proc then
        processLoop geo existing rest (idx + 1) proc (errs ++ [dupBatchMsg cand]) cache
      else
        let hq := if pyStrip row.hq_address == [] then none else some (pyStrip row.hq_address)
        match geocode_location geo cache row.city cand.province hq with
        | (Except.error e, cache') =>
          processLoop geo existing rest (idx + 1) proc (errs ++ [geoMsg cand e]) cache'
        | (Except.ok lv, cache') =>
          let fin := { cand with
            lat := lv.1, lng := lv.2,
            description := pyStrip row.description, tags := pyStrip row.tags }
          processLoop geo existing rest (idx + 1) (proc ++ [fin]) errs cache'

/-- Codepoint comparison of strings, as Python `<` on `str`. -/
def strLt : Str → Str → Bool
  | [], [] => false
  | [], _ :: _ => true
  | _ :: _, [] => false
  | a :: s, b :: t => if a == b then strLt s t else decide (a.toNat < b.toNat)

/-- Python tuple key `(province, name)` compared by `<=`, for the stable
ascending sort of the merge step. -/
def provNameLe (a b : CompanyRec) : Bool :=
  strLt a.province b.province ||
  (a.province == b.province && (strLt a.name b.name || a.name == b.name))

/-- `process_incoming_companies` from the parsed row stream on: filter
blank/comment rows, fail on an empty batch, run the per-company loop (cache
writes land in the state unconditionally), then apply the write policy:
never write in check mode; never write when any error accumulated; else
overwrite the canonical file with existing ++ processed sorted by
(province, name). -/
def process_incoming_companies (rows : List Row) (check_only : Bool)
    (geo : Geo) (st : PipelineState) :
    (List CompanyRec × List Str) × PipelineState :=
  let incoming := rows.filter keepRow
  if incoming.isEmpty then
    (([], ["No companies found in input".toList]), st)
  else
    let existing := st.csvFile.getD []
    let r := processLoop geo existing incoming 0 [] [] st.cacheFile
    let st1 : PipelineState := { st with cacheFile := r.2.2 }
    if check_only then ((r.1, r.2.1), st1)
    else if !r.2.1.isEmpty then ((r.1, r.2.1), st1)
    else if !r.1.isEmpty then
      ((r.1, r.2.1),
       { st1 with csvFile := some (List.mergeSort (existing ++ r.1) provNameLe) })
    else ((r.1, r.2.1), st1)

/-! Concrete fixtures used by the witnesses, counterexamples and the
concrete-scenario claims. -/

/-- The spec's concrete scenario row. -/
def rowAcme : Row :=
  { name := "Acme Inc.".toList, url := "acme.com".toList,
    industry := "SaaS".toList, remote_policy := "Remote".toList,
    city := "Toronto".toList, province := "on".toList,
    description := " d ".toList, tags := "t".toList, hq_address := [] }

/-- An all-empty CSV row (skipped by the reader). -/
def rowBlank : Row :=
  { name := [], url := [], industry := [], remote_policy := [],
    city := [], province := [], description := [], tags := [], hq_address := [] }

/-- The scenario row with its url column blanked. -/
def rowNoUrl : Row := { rowAcme with url := [] }

/-- A geocoding oracle that resolves every query. -/
def geoFound : Geo := fun _ => GeoResult.found ("43.65".toList, "-79.38".toList)

/-- A geocoding oracle whose service always reports not-found. -/
def geoDown : Geo := fun _ => GeoResult.notFound

/-- Fresh persisted state: no canonical file yet, empty cache file. -/
def emptyState : PipelineState := { csvFile := none, cacheFile := [] }

/-- Claim C5: for the row
`name="Acme Inc.", url="acme.com", industry="SaaS", remote_policy="Remote",
city="Toronto", province="on"`, the normalized url is `https://acme.com`,
the generated identifier is `acme-inc-toronto`, and the province stored by
the in-loop normalization is `ON`. -/
theorem claim5_concrete_scenario :
    normalize_url "acme.com".toList = "https://acme.com".toList ∧
    generate_id "Acme Inc.".toList "Toronto".toList = "acme-inc-toronto".toList ∧
    (mkCandidate rowAcme).province = "ON".toList := by
  refine ⟨rfl, rfl, rfl⟩

def recAbcDotted : CompanyRec :=
  { id := generate_id "A.B.C".toList "Toronto".toList, name := "A.B.C".toList,
    url := "https://abc.example".toList, description := [], industry := "SaaS".toList,
    tags := [], remote_policy := "Remote".toList, city := "Toronto".toList,
    province := "ON".toList, lat := "1".toList, lng := "2".toList }

def recAbcPlain : CompanyRec :=
  { recAbcDotted with
    id := generate_id "ABC".toList "Toronto".toList,
    name := "ABC".toList, url := "https://other.example".toList }

/-- Claim C10: identifier generation is not injective in the name: the
distinct names `A.B.C` and `ABC` (differing only in characters outside
`[\w\s-]`) give the same identifier for the same city; the colliding later
record is caught by the identifier arm of `is_duplicate` even though the
raw names and the normalized names both differ (so the triple arm does not
fire). -/
theorem claim10_slug_collision :
    "A.B.C".toList ≠ "ABC".toList ∧
    generate_id "A.B.C".toList "Toronto".toList =
      generate_id "ABC".toList "Toronto".toList ∧
    normalize_name "A.B.C".toList ≠ normalize_name "ABC".toList ∧
    is_duplicate recAbcPlain [recAbcDotted] = true ∧
    (normalize_name recAbcDotted.name == normalize_name recAbcPlain.name &&
     pyLower (pyStrip recAbcDotted.city) == pyLower (pyStrip recAbcPlain.city) &&
     pyUpper (pyStrip recAbcDotted.province) == pyUpper (pyStrip recAbcPlain.province))
      = false := by
  refine ⟨by decide, rfl, by decide, by decide, by decide⟩

/-- Claim C3 (claim false, code slip): on an input whose row 2 is blank and
whose row 3 is a record with a blank url, the blank row is dropped before
numbering, so the single error is reported as `Row 2` although the failing
record sits at row 3 of the input file; the reported number is
`index-in-filtered-batch + 2`, not the record's file position (which the
script computes in `enumerate(reader, start=2)` and never uses). -/
theorem claim3_row_numbering_slip :
    List.filter keepRow [rowBlank, rowNoUrl] = [rowNoUrl] ∧
    (process_incoming_companies [rowBlank, rowNoUrl] false geoFound emptyState).1.2 =
      ["Row 2: Missing required field: url".toList] := by
  refine ⟨rfl, rfl⟩

/-- Claim C1: batch atomicity of the canonical write.  In non-check mode,
whenever the run accumulates any error, the canonical dataset file is left
exactly as it was — no record of the batch lands. -/
theorem claim1_batch_atomicity (rows : List Row) (geo : Geo) (st : PipelineState)
    (h : (process_incoming_companies rows false geo st).1.2 ≠ []) :
    (process_incoming_companies rows false geo st).2.csvFile = st.csvFile := by
  by_cases he : (List.filter keepRow rows).isEmpty
  · simp [process_incoming_companies, he]
  · rcases hr : processLoop geo (st.csvFile.getD []) (List.filter keepRow rows) 0 [] [] st.cacheFile
      with ⟨proc, errs, cache⟩
    by_cases herr : errs.isEmpty
    · exfalso
      apply h
      have herr' : errs = [] := List.isEmpty_iff.mp herr
      subst herr'
      simp [process_incoming_companies, he, hr]
      split <;> simp
    · simp [process_incoming_companies, he, hr, herr]

def rowBeta : Row :=
  { rowAcme with
    name := "Beta Ltd.".toList, city := "Ottawa".toList, url := "beta.ca".toList }

def rowGamma : Row :=
  { rowAcme with
    name := "Gamma Corp".toList, city := "Vancouver".toList,
    province := "BC".toList, url := "gamma.io".toList }

def rowBadIndustry : Row :=
  { rowAcme with
    name := "Delta".toList, city := "Calgary".toList, province := "AB".toList,
    url := "delta.example".toList, industry := "Retail".toList }

def rows3Plus1 : List Row := [rowAcme, rowBeta, rowGamma, rowBadIndustry]

/-- Witness for C1: three valid records plus one with an invalid industry
give a non-empty error list and leave the (absent) canonical file
untouched. -/
theorem claim1_batch_atomicity_witness :
    (process_incoming_companies rows3Plus1 false geoFound emptyState).1.2 ≠ [] ∧
    (process_incoming_companies rows3Plus1 false geoFound emptyState).2.csvFile =
      emptyState.csvFile :=
  ⟨by decide, claim1_batch_atomicity rows3Plus1 geoFound emptyState (by decide)⟩

/-- Counterexample to C2 as stated: a check-only run over the scenario row
with an empty cache geocodes on a cache miss and persists the new cache
entry, so the geocode cache file is modified by the dry run. -/
theorem claim2_counterexample :
    (process_incoming_companies [rowAcme] true geoFound emptyState).2.cacheFile ≠
      emptyState.cacheFile := by decide

/-- Claim C2 (amended): a check-only run performs validation, dedup and
geocoding and never modifies the canonical dataset file, but the geocode
cache file is still written through on any cache miss that geocodes
successfully (exhibited on a concrete run). -/
theorem claim2_check_mode_amended :
    (∀ (rows : List Row) (geo : Geo) (st : PipelineState),
      (process_incoming_companies rows true geo st).2.csvFile = st.csvFile) ∧
    (process_incoming_companies [rowBeta] true geoFound emptyState).2.cacheFile ≠
      emptyState.cacheFile := by
  refine ⟨fun rows geo st => ?_, by decide⟩
  by_cases he : (List.filter keepRow rows).isEmpty
  · simp [process_incoming_companies, he]
  · rcases hr : processLoop geo (st.csvFile.getD []) (List.filter keepRow rows) 0 [] [] st.cacheFile
      with ⟨proc, errs, cache⟩
    simp [process_incoming_companies, he, hr]

/-- Claim C9: geocode cache writes are outside batch atomicity: the cache
file a run leaves behind is the same whether or not the canonical write is
suppressed (it coincides with the check-only run's cache), and concretely a
non-check batch whose first record geocodes on a miss and whose second
record fails validation persists the first record's cache entry while the
canonical file stays untouched. -/
theorem claim9_cache_outside_atomicity :
    (∀ (rows : List Row) (geo : Geo) (st : PipelineState),
      (process_incoming_companies rows false geo st).2.cacheFile =
        (process_incoming_companies rows true geo st).2.cacheFile) ∧
    (process_incoming_companies [rowAcme, rowNoUrl] false geoFound emptyState).1.2 ≠ [] ∧
    (process_incoming_companies [rowAcme, rowNoUrl] false geoFound emptyState).2.csvFile =
      emptyState.csvFile ∧
    lookupA (process_incoming_companies [rowAcme, rowNoUrl] false geoFound emptyState).2.cacheFile
      "Toronto, ON, Canada".toList = some ("43.65".toList, "-79.38".toList) ∧
    lookupA emptyState.cacheFile "Toronto, ON, Canada".toList = none := by
  refine ⟨fun rows geo st => ?_, by decide, by decide, by decide, by decide⟩
  by_cases he : (List.filter keepRow rows).isEmpty
  · simp [process_incoming_companies, he]
  · rcases hr : processLoop geo (st.csvFile.getD []) (List.filter keepRow rows) 0 [] [] st.cacheFile
      with ⟨proc, errs, cache⟩
    by_cases herr : errs.isEmpty
    · by_cases hp : proc.isEmpty <;>
        simp [process_incoming_companies, he, hr, herr, hp]
    · simp [process_incoming_companies, he, hr, herr]

def recAcme : CompanyRec := mkCandidate { rowAcme with name := "Acme".toList }

def recAcmeInc : CompanyRec := mkCandidate rowAcme

/-- Claim C4: identifier generation keeps corporate-suffix words while
dedup's name normalization strips them: `Acme` and `Acme Inc.` at the same
city/province get different identifiers yet the later record is flagged as
a duplicate; in general, a candidate whose normalized name, normalized
city and normalized province coincide with some pool record's is rejected
by `is_duplicate` no matter how its other fields differ. -/
theorem claim4_dedup_vs_id :
    generate_id "Acme".toList "Toronto".toList ≠
      generate_id "Acme Inc.".toList "Toronto".toList ∧
    recAcme.id ≠ recAcmeInc.id ∧
    is_duplicate recAcmeInc [recAcme] = true ∧
    ∀ (c₁ c₂ : CompanyRec) (pool : List CompanyRec),
      c₁ ∈ pool →
      normalize_name c₁.name = normalize_name c₂.name →
      pyLower (pyStrip c₁.city) = pyLower (pyStrip c₂.city) →
      pyUpper (pyStrip c₁.province) = pyUpper (pyStrip c₂.province) →
      is_duplicate c₂ pool = true := by
  refine ⟨by decide, by decide, by decide, fun c₁ c₂ pool hmem h1 h2 h3 => ?_⟩
  unfold is_duplicate
  rw [List.any_eq_true]
  exact ⟨c₁, hmem, by simp [h1, h2, h3]⟩

def recAcmeOther : CompanyRec :=
  { recAcme with
    name := "Acme Corp".toList, url := "https://elsewhere.example".toList,
    description := "other".toList, tags := "x,y".toList }

/-- Witness for C4: the general dedup part applied to two concrete records
that differ in url, description and tags but share normalized name, city
and province. -/
theorem claim4_dedup_vs_id_witness :
    is_duplicate recAcmeOther [recAcme] = true :=
  claim4_dedup_vs_id.2.2.2 recAcme recAcmeOther [recAcme]
    (by decide) (by decide) (by decide) (by decide)

lemma startsWithL_nil_ne {s : Str} {c : Char} {p : Str}
    (h : startsWithL s (c :: p) = true) : s ≠ [] := by
  cases s with
  | nil => simp [startsWithL, startsWithP] at h
  | cons a t => exact fun he => List.noConfusion he

lemma eq_append_drop_of_startsWithL :
    ∀ (p s : Str), startsWithL s p = true → s = p ++ s.drop p.length := by
  intro p
  induction p with
  | nil => intro s _; simp
  | cons q ps ih =>
    intro s h
    cases s with
    | nil => simp [startsWithL, startsWithP] at h
    | cons c rest =>
      have h' : c = q ∧ startsWithP ps rest = true := by
        simpa [startsWithL, startsWithP] using h
      obtain ⟨rfl, h2⟩ := h'
      have h3 := ih rest h2
      simp only [List.cons_append, List.length_cons, List.drop_succ_cons]
      exact congrArg (c :: ·) h3

lemma replaceFirst_http (s : Str) (h : startsWithL s httpSl = true) :
    replaceFirst s httpSl httpsSl = httpsSl ++ s.drop httpSl.length := by
  cases s with
  | nil => exact absurd h (by simp [startsWithL, startsWithP, httpSl])
  | cons c rest =>
    show replaceFirst (c :: rest) ('h' :: ['t', 't', 'p', ':', '/', '/']) httpsSl = _
    simp only [replaceFirst]
    rw [if_pos (show startsWithL (c :: rest) ['h', 't', 't', 'p', ':', '/', '/'] = true from h)]
    rfl

lemma dropWhile_head_false {p : Char → Bool} :
    ∀ (l : List Char) (c : Char) (t : List Char),
      l.dropWhile p = c :: t → p c = false := by
  intro l
  induction l with
  | nil => intro c t h; simp [List.dropWhile] at h
  | cons a l' ih =>
    intro c t h
    by_cases ha : p a
    · rw [List.dropWhile_cons, if_pos ha] at h
      exact ih c t h
    · rw [List.dropWhile_cons, if_neg ha] at h
      obtain ⟨rfl, -⟩ := List.cons.inj h
      exact Bool.eq_false_iff.mpr ha

lemma rstripSlash_idem (s : Str) : rstripSlash (rstripSlash s) = rstripSlash s := by
  unfold rstripSlash
  rw [List.reverse_reverse, List.dropWhile_idempotent]

lemma rstripSlash_append (a b : Str) :
    rstripSlash (a ++ b) =
      if rstripSlash b = [] then rstripSlash a else a ++ rstripSlash b := by
  unfold rstripSlash
  rw [List.reverse_append, List.dropWhile_append]
  by_cases hb : List.dropWhile (fun c => c == '/') b.reverse = []
  · simp [hb]
  · simp [hb, List.reverse_append, List.reverse_reverse]

lemma https_not_http (r : Str) : startsWithL (httpsSl ++ r) httpSl = false := rfl

lemma https_starts_https (r : Str) : startsWithL (httpsSl ++ r) httpsSl = true := rfl

lemma https_starts_scheme (r : Str) :
    startsWithL (httpsSl ++ r) "https:".toList = true := rfl

lemma rstrip_https_shape (r : Str) :
    rstripSlash (httpsSl ++ r) = "https:".toList ∨
    ∃ r' : Str, rstripSlash (httpsSl ++ r) = httpsSl ++ r' ∧ r' ≠ [] ∧
      rstripSlash r' = r' := by
  rw [rstripSlash_append]
  by_cases hr : rstripSlash r = []
  · left
    rw [if_pos hr]
    rfl
  · right
    exact ⟨rstripSlash r, by rw [if_neg hr], hr, rstripSlash_idem r⟩

lemma normalize_url_shape (u : Str) :
    normalize_url u = [] ∨ normalize_url u = "https:".toList ∨
    ∃ r : Str, normalize_url u = httpsSl ++ r ∧ r ≠ [] ∧ rstripSlash r = r := by
  by_cases h0 : pyStrip u == []
  · left
    simp only [normalize_url, h0, if_true]
    exact eq_of_beq h0
  · by_cases hS : startsWithL (pyStrip u) httpsSl
    · have hu : pyStrip u = httpsSl ++ (pyStrip u).drop httpsSl.length :=
        eq_append_drop_of_startsWithL httpsSl (pyStrip u) hS
      have hH : startsWithL (pyStrip u) httpSl = false := by
        rw [hu]; exact https_not_http _
      have : normalize_url u =
          rstripSlash (httpsSl ++ (pyStrip u).drop httpsSl.length) := by
        simp only [normalize_url, h0, Bool.false_eq_true, if_false, hS, hH,
          Bool.or_true, Bool.or_false, Bool.not_true, Bool.not_false]
        rw [← hu]
      rw [this]
      exact Or.inr (rstrip_https_shape _)
    · by_cases hH : startsWithL (pyStrip u) httpSl
      · have : normalize_url u =
            rstripSlash (httpsSl ++ (pyStrip u).drop httpSl.length) := by
          simp only [normalize_url, h0, Bool.false_eq_true, if_false, hS, hH,
            Bool.true_or, Bool.or_false, Bool.not_true, Bool.not_false]
          rw [if_pos trivial, replaceFirst_http _ hH]
        rw [this]
        exact Or.inr (rstrip_https_shape _)
      · have : normalize_url u = rstripSlash (httpsSl ++ pyStrip u) := by
          simp only [normalize_url, h0, Bool.false_eq_true, if_false, hS, hH,
            Bool.or_false, Bool.not_false, if_true]
        rw [this]
        exact Or.inr (rstrip_https_shape _)


lemma normalize_url_fixed {v : Str} (hstrip : pyStrip v = v)
    (hS : startsWithL v httpsSl = true) (hr : rstripSlash v = v) :
    normalize_url v = v := by
  have hne : v ≠ [] :=
    startsWithL_nil_ne (show startsWithL v ('h' :: ['t', 't', 'p', 's', ':', '/', '/']) = true from hS)
  have hH : startsWithL v httpSl = false := by
    rw [eq_append_drop_of_startsWithL httpsSl v hS]
    exact https_not_http _
  simp only [normalize_url, hstrip]
  rw [if_neg (by simpa using hne)]
  simp only [hS, hH, Bool.false_or, Bool.or_true, Bool.not_true, Bool.false_eq_true,
    if_false]
  exact hr

/-- Claim C6 (amended): URL normalization trims, prepends the secure scheme
when absent and rewrites the insecure scheme (every non-empty output starts
with `https:`); it strips ALL trailing slashes, not exactly one; and it is
idempotent exactly on the inputs whose normalized form is its own trim and
is not the degenerate bare-scheme string `https:` (produced when the
trimmed input is a scheme followed only by slashes). -/
theorem claim6_normalize_url_amended :
    (∀ u : Str, normalize_url u = [] ∨
      startsWithL (normalize_url u) "https:".toList = true) ∧
    normalize_url "https://a.com//".toList = "https://a.com".toList ∧
    ∀ u : Str, pyStrip (normalize_url u) = normalize_url u →
      normalize_url u ≠ "https:".toList →
      normalize_url (normalize_url u) = normalize_url u := by
  refine ⟨fun u => ?_, by decide, fun u h1 h2 => ?_⟩
  · rcases normalize_url_shape u with h | h | ⟨r, h, -, -⟩
    · exact Or.inl h
    · right
      rw [h]
      decide
    · right
      rw [h]
      exact https_starts_scheme r
  · rcases normalize_url_shape u with h | h | ⟨r, h, hne, hstr⟩
    · rw [h]
      rfl
    · exact absurd h h2
    · rw [h] at h1 ⊢
      refine normalize_url_fixed h1 (https_starts_https r) ?_
      rw [rstripSlash_append, if_neg (by rw [hstr]; exact hne), hstr]

/-- Counterexample to C6 as stated: `https://` is not an idempotence point
(its normal form `https:` re-normalizes to `https://https:`), and a double
trailing slash is stripped entirely, not one slash only. -/
theorem claim6_counterexample :
    normalize_url (normalize_url "https://".toList) ≠ normalize_url "https://".toList ∧
    normalize_url "https://a.com//".toList ≠ "https://a.com/".toList :=
  ⟨by decide, by decide⟩

/-- Witness for C6: the idempotence part applied at `acme.com`. -/
theorem claim6_normalize_url_amended_witness :
    pyStrip (normalize_url "acme.com".toList) = normalize_url "acme.com".toList ∧
    normalize_url "acme.com".toList ≠ "https:".toList ∧
    normalize_url (normalize_url "acme.com".toList) = normalize_url "acme.com".toList :=
  ⟨by decide, by decide,
   claim6_normalize_url_amended.2.2 "acme.com".toList (by decide) (by decide)⟩

lemma getField_name (c : Row) : getField c "name".toList = c.name := rfl
lemma getField_url (c : Row) : getField c "url".toList = c.url := rfl
lemma getField_industry (c : Row) : getField c "industry".toList = c.industry := rfl
lemma getField_policy (c : Row) : getField c "remote_policy".toList = c.remote_policy := rfl
lemma getField_city (c : Row) : getField c "city".toList = c.city := rfl
lemma getField_province (c : Row) : getField c "province".toList = c.province := rfl

set_option maxHeartbeats 1600000 in
lemma reqFieldErrs_eq (c : Row) :
    reqFieldErrs c =
      (if pyStrip c.name == [] then [missingMsg "name".toList] else []) ++
      (if pyStrip c.url == [] then [missingMsg "url".toList] else []) ++
      (if pyStrip c.industry == [] then [missingMsg "industry".toList] else []) ++
      (if pyStrip c.remote_policy == [] then [missingMsg "remote_policy".toList] else []) ++
      (if pyStrip c.city == [] then [missingMsg "city".toList] else []) ++
      (if pyStrip c.province == [] then [missingMsg "province".toList] else []) := by
  unfold reqFieldErrs requiredFields
  simp only [List.filterMap_cons, List.filterMap_nil, getField_name, getField_url,
    getField_industry, getField_policy, getField_city, getField_province]
  by_cases h1 : pyStrip c.name == [] <;>
  by_cases h2 : pyStrip c.url == [] <;>
  by_cases h3 : pyStrip c.industry == [] <;>
  by_cases h4 : pyStrip c.remote_policy == [] <;>
  by_cases h5 : pyStrip c.city == [] <;>
  by_cases h6 : pyStrip c.province == [] <;>
  simp [h1, h2, h3, h4, h5, h6]

lemma missing_ne_of_head {m : Str} (f : Str)
    (hM : m.head? = some 'U' ∨ m.head? = some 'I') : missingMsg f ≠ m := by
  intro h
  have hMis : (missingMsg f).head? = some 'M' := rfl
  rcases hM with hU | hI
  · rw [h, hU] at hMis
    exact absurd hMis (by decide)
  · rw [h, hI] at hMis
    exact absurd hMis (by decide)

lemma urlFieldErrs_count (c : Row) (f : Str) :
    (urlFieldErrs c).count (missingMsg f) = 0 := by
  rw [List.count_eq_zero]
  intro hmem
  unfold urlFieldErrs at hmem
  split at hmem
  · exact absurd hmem (List.not_mem_nil _)
  · rw [List.mem_append] at hmem
    rcases hmem with hm | hm <;> split at hm
    · exact absurd hm (List.not_mem_nil _)
    · rw [List.mem_singleton] at hm
      exact absurd hm (missing_ne_of_head f (Or.inl rfl))
    · rw [List.mem_singleton] at hm
      exact absurd hm (missing_ne_of_head f (Or.inr rfl))
    · exact absurd hm (List.not_mem_nil _)

lemma industryFieldErrs_count (c : Row) (f : Str) :
    (industryFieldErrs c).count (missingMsg f) = 0 := by
  rw [List.count_eq_zero]
  intro hmem
  unfold industryFieldErrs at hmem
  simp only [] at hmem
  split at hmem
  · exact absurd hmem (List.not_mem_nil _)
  · split at hmem
    · exact absurd hmem (List.not_mem_nil _)
    · rw [List.mem_singleton] at hmem
      exact absurd hmem (missing_ne_of_head f (Or.inr rfl))

lemma policyFieldErrs_count (c : Row) (f : Str) :
    (policyFieldErrs c).count (missingMsg f) = 0 := by
  rw [List.count_eq_zero]
  intro hmem
  unfold policyFieldErrs at hmem
  simp only [] at hmem
  split at hmem
  · exact absurd hmem (List.not_mem_nil _)
  · split at hmem
    · exact absurd hmem (List.not_mem_nil _)
    · rw [List.mem_singleton] at hmem
      exact absurd hmem (missing_ne_of_head f (Or.inr rfl))

lemma provinceFieldErrs_count (c : Row) (f : Str) :
    (provinceFieldErrs c).count (missingMsg f) = 0 := by
  rw [List.count_eq_zero]
  intro hmem
  unfold provinceFieldErrs at hmem
  simp only [] at hmem
  split at hmem
  · exact absurd hmem (List.not_mem_nil _)
  · split at hmem
    · exact absurd hmem (List.not_mem_nil _)
    · rw [List.mem_singleton] at hmem
      exact absurd hmem (missing_ne_of_head f (Or.inr rfl))


lemma count_of_ite_self (b : Prop) [Decidable b] (m : Str) :
    (if b then [m] else []).count m = if b then 1 else 0 := by
  split <;> simp

lemma count_of_ite_other (b : Prop) [Decidable b] {a m : Str} (h : a ≠ m) :
    (if b then [m] else []).count a = 0 := by
  split <;> simp [List.count_cons, h]

lemma reqFieldErrs_count (c : Row) (f : Str) (hf : f ∈ requiredFields) :
    (reqFieldErrs c).count (missingMsg f) =
      if pyStrip (getField c f) = [] then 1 else 0 := by
  simp only [requiredFields, List.mem_cons, List.not_mem_nil, or_false] at hf
  rw [reqFieldErrs_eq]
  simp only [List.count_append]
  rcases hf with rfl | rfl | rfl | rfl | rfl | rfl
  · rw [count_of_ite_self,
      count_of_ite_other _ (by decide), count_of_ite_other _ (by decide),
      count_of_ite_other _ (by decide), count_of_ite_other _ (by decide),
      count_of_ite_other _ (by decide)]
    rw [getField_name]
    simp
  · rw [count_of_ite_self,
      count_of_ite_other _ (by decide), count_of_ite_other _ (by decide),
      count_of_ite_other _ (by decide), count_of_ite_other _ (by decide),
      count_of_ite_other _ (by decide)]
    rw [getField_url]
    simp
  · rw [count_of_ite_self,
      count_of_ite_other _ (by decide), count_of_ite_other _ (by decide),
      count_of_ite_other _ (by decide), count_of_ite_other _ (by decide),
      count_of_ite_other _ (by decide)]
    rw [getField_industry]
    simp
  · rw [count_of_ite_self,
      count_of_ite_other _ (by decide), count_of_ite_other _ (by decide),
      count_of_ite_other _ (by decide), count_of_ite_other _ (by decide),
      count_of_ite_other _ (by decide)]
    rw [getField_policy]
    simp
  · rw [count_of_ite_self,
      count_of_ite_other _ (by decide), count_of_ite_other _ (by decide),
      count_of_ite_other _ (by decide), count_of_ite_other _ (by decide),
      count_of_ite_other _ (by decide)]
    rw [getField_city]
    simp
  · rw [count_of_ite_self,
      count_of_ite_other _ (by decide), count_of_ite_other _ (by decide),
      count_of_ite_other _ (by decide), count_of_ite_other _ (by decide),
      count_of_ite_other _ (by decide)]
    rw [getField_province]
    simp

/-- Claim C7: for every record and every required field, `validate_company`
reports exactly one missing-field error when that field is absent or blank
and none otherwise — the loop enumerates every missing field without
stopping, and no other validation section ever emits a missing-field
message. -/
theorem claim7_missing_field_errors (c : Row) (f : Str) (hf : f ∈ requiredFields) :
    (validate_company c).count (missingMsg f) =
      if pyStrip (getField c f) = [] then 1 else 0 := by
  unfold validate_company
  simp only [List.count_append, urlFieldErrs_count, industryFieldErrs_count,
    policyFieldErrs_count, provinceFieldErrs_count, Nat.add_zero]
  exact reqFieldErrs_count c f hf

/-- Witness for C7: a row with a blank url gets exactly one missing-url
error and no missing-name error. -/
theorem claim7_missing_field_errors_witness :
    ("url".toList ∈ requiredFields) ∧
    (validate_company rowNoUrl).count (missingMsg "url".toList) = 1 ∧
    (validate_company rowNoUrl).count (missingMsg "name".toList) = 0 :=
  ⟨by decide,
   by rw [claim7_missing_field_errors rowNoUrl "url".toList (by decide)]; decide,
   by rw [claim7_missing_field_errors rowNoUrl "name".toList (by decide)]; decide⟩

/-- The dataset invariant the write step actually preserves: every stored
record has non-empty required fields, its province is stored as a member of
`PROVINCES`, and its industry and remote policy are enum members after
trimming (the script stores those two raw). -/
def storedInvariant (r : CompanyRec) : Prop :=
  r.name ≠ [] ∧ r.url ≠ [] ∧ r.industry ≠ [] ∧ r.remote_policy ≠ [] ∧
  r.city ≠ [] ∧ r.province ≠ [] ∧
  pyStrip r.industry ∈ INDUSTRIES ∧ pyStrip r.remote_policy ∈ REMOTE_POLICIES ∧
  r.province ∈ PROVINCES

lemma ite_singleton_nil {b : Prop} [Decidable b] {m : Str}
    (h : (if b then [m] else []) = []) : ¬ b := by
  intro hb
  rw [if_pos hb] at h
  exact absurd h (by simp)

lemma ite_nil_singleton_true {b : Prop} [Decidable b] {m : Str}
    (h : (if b then [] else [m]) = []) : b := by
  by_cases hb : b
  · exact hb
  · rw [if_neg hb] at h
    exact absurd h (by simp)

lemma ne_nil_of_pyStrip {s : Str} (h : pyStrip s ≠ []) : s ≠ [] := by
  intro he
  exact h (by rw [he]; rfl)

lemma validate_nil_facts {c : Row} (h : validate_company c = []) :
    pyStrip c.name ≠ [] ∧ pyStrip c.url ≠ [] ∧ pyStrip c.industry ≠ [] ∧
    pyStrip c.remote_policy ≠ [] ∧ pyStrip c.city ≠ [] ∧ pyStrip c.province ≠ [] ∧
    startsWithL (normalize_url c.url) httpsSl = true ∧
    pyStrip c.industry ∈ INDUSTRIES ∧ pyStrip c.remote_policy ∈ REMOTE_POLICIES ∧
    pyUpper (pyStrip c.province) ∈ PROVINCES := by
  unfold validate_company at h
  simp only [List.append_eq_nil] at h
  obtain ⟨⟨⟨⟨hreq, hurl⟩, hind⟩, hpol⟩, hprov⟩ := h
  rw [reqFieldErrs_eq] at hreq
  simp only [List.append_eq_nil] at hreq
  obtain ⟨⟨⟨⟨⟨h1, h2⟩, h3⟩, h4⟩, h5⟩, h6⟩ := hreq
  have f1 : pyStrip c.name ≠ [] := fun he => ite_singleton_nil h1 (by simp [he])
  have f2 : pyStrip c.url ≠ [] := fun he => ite_singleton_nil h2 (by simp [he])
  have f3 : pyStrip c.industry ≠ [] := fun he => ite_singleton_nil h3 (by simp [he])
  have f4 : pyStrip c.remote_policy ≠ [] := fun he => ite_singleton_nil h4 (by simp [he])
  have f5 : pyStrip c.city ≠ [] := fun he => ite_singleton_nil h5 (by simp [he])
  have f6 : pyStrip c.province ≠ [] := fun he => ite_singleton_nil h6 (by simp [he])
  refine ⟨f1, f2, f3, f4, f5, f6, ?_, ?_, ?_, ?_⟩
  · unfold urlFieldErrs at hurl
    rw [if_neg (by simpa using ne_nil_of_pyStrip f2)] at hurl
    simp only [List.append_eq_nil] at hurl
    exact ite_nil_singleton_true hurl.1
  · unfold industryFieldErrs at hind
    rw [if_neg (by simpa using ne_nil_of_pyStrip f3)] at hind
    dsimp only at hind
    exact ite_nil_singleton_true hind
  · unfold policyFieldErrs at hpol
    rw [if_neg (by simpa using ne_nil_of_pyStrip f4)] at hpol
    dsimp only at hpol
    exact ite_nil_singleton_true hpol
  · unfold provinceFieldErrs at hprov
    rw [if_neg (by simpa using ne_nil_of_pyStrip f6)] at hprov
    dsimp only at hprov
    exact ite_nil_singleton_true hprov

lemma provinces_ne_nil : ∀ p ∈ PROVINCES, p ≠ [] := by decide


lemma processLoop_processed_inv (geo : Geo) (ex : List CompanyRec) :
    ∀ (rows : List Row) (idx : Nat) (proc : List CompanyRec)
      (errs : List Str) (cache : Cache),
      (∀ r ∈ proc, storedInvariant r) →
      ∀ r ∈ (processLoop geo ex rows idx proc errs cache).1, storedInvariant r := by
  intro rows
  induction rows with
  | nil =>
    intro idx proc errs cache hproc r hr
    exact hproc r hr
  | cons row rest ih =>
    intro idx proc errs cache hproc r hr
    rw [processLoop] at hr
    dsimp only at hr
    by_cases hv : (validate_company row).isEmpty
    · rw [if_neg (by simp [hv])] at hr
      by_cases hd1 : is_duplicate (mkCandidate row) ex
      · rw [if_pos hd1] at hr
        exact ih _ _ _ _ hproc r hr
      · rw [if_neg hd1] at hr
        by_cases hd2 : is_duplicate (mkCandidate row) proc
        · rw [if_pos hd2] at hr
          exact ih _ _ _ _ hproc r hr
        · rw [if_neg hd2] at hr
          rcases hg : geocode_location geo cache row.city (mkCandidate row).province
              (if pyStrip row.hq_address == [] then none else some (pyStrip row.hq_address))
            with ⟨res, cache2⟩
          rw [hg] at hr
          rcases res with e | lv
          · exact ih _ _ _ _ hproc r hr
          · refine ih _ _ _ _ ?_ r hr
            intro r2 hr2
            rcases List.mem_append.mp hr2 with h2 | h2
            · exact hproc r2 h2
            · rw [List.mem_singleton] at h2
              subst h2
              have hfacts := validate_nil_facts (List.isEmpty_iff.mp hv)
              obtain ⟨f1, f2, f3, f4, f5, f6, fs, fi, fp, fv⟩ := hfacts
              refine ⟨ne_nil_of_pyStrip f1,
                startsWithL_nil_ne
                  (show startsWithL (normalize_url row.url)
                    ('h' :: ['t', 't', 'p', 's', ':', '/', '/']) = true from fs),
                ne_nil_of_pyStrip f3, ne_nil_of_pyStrip f4, ne_nil_of_pyStrip f5,
                provinces_ne_nil _ fv, fi, fp, fv⟩
    · rw [if_pos (by simp [hv])] at hr
      exact ih _ _ _ _ hproc r hr


/-- Claim C8 (amended): assuming every record already in the canonical
dataset satisfies the stored invariant (non-empty required fields, stored
province in `PROVINCES`, trimmed industry and remote policy in their
enums), every record of the file a non-check run leaves behind satisfies it
too.  The claim as stated — enum membership of industry and remote_policy
AS STORED — fails because those two fields are stored raw. -/
theorem claim8_write_invariant (rows : List Row) (geo : Geo) (st : PipelineState)
    (l : List CompanyRec)
    (hex : ∀ r ∈ st.csvFile.getD [], storedInvariant r)
    (hw : (process_incoming_companies rows false geo st).2.csvFile = some l) :
    ∀ r ∈ l, storedInvariant r := by
  have hsame : st.csvFile = some l → ∀ r ∈ l, storedInvariant r := by
    intro hw' r hr
    apply hex
    rw [hw']
    simpa using hr
  by_cases he : (List.filter keepRow rows).isEmpty
  · refine hsame ?_
    simpa [process_incoming_companies, he] using hw
  · rcases hr0 : processLoop geo (st.csvFile.getD []) (List.filter keepRow rows) 0 [] [] st.cacheFile
      with ⟨proc, errs, cache⟩
    by_cases herr : errs.isEmpty
    · by_cases hp : proc.isEmpty
      · refine hsame ?_
        simpa [process_incoming_companies, he, hr0, herr, hp] using hw
      · simp only [process_incoming_companies, he, hr0, herr, hp] at hw
        simp only [Bool.not_true, Bool.not_false, Bool.false_eq_true, if_false,
          if_true, Option.some.injEq] at hw
        intro r hr
        rw [← hw] at hr
        rw [List.mem_mergeSort] at hr
        rcases List.mem_append.mp hr with h2 | h2
        · exact hex r h2
        · refine processLoop_processed_inv geo (st.csvFile.getD [])
            (List.filter keepRow rows) 0 [] [] st.cacheFile (by simp) r ?_
          rw [hr0]
          exact h2
    · refine hsame ?_
      simpa [process_incoming_companies, he, hr0, herr] using hw

def acmeOut : CompanyRec :=
  { id := "acme-inc-toronto".toList, name := "Acme Inc.".toList,
    url := "https://acme.com".toList, description := "d".toList,
    industry := "SaaS".toList, tags := "t".toList,
    remote_policy := "Remote".toList, city := "Toronto".toList,
    province := "ON".toList, lat := "43.65".toList, lng := "-79.38".toList }

def rowIndSpace : Row := { rowAcme with industry := " SaaS".toList }

def spaceOut : CompanyRec := { acmeOut with industry := " SaaS".toList }

/-- Counterexample to C8 as stated: a run over a record whose industry
column is `" SaaS"` validates (the check trims first), writes, and the
stored industry value `" SaaS"` is not a member of `INDUSTRIES`. -/
theorem claim8_counterexample :
    (process_incoming_companies [rowIndSpace] false geoFound emptyState).2.csvFile =
      some [spaceOut] ∧
    spaceOut.industry = " SaaS".toList ∧ " SaaS".toList ∉ INDUSTRIES := by
  refine ⟨?_, rfl, by decide⟩
  have h1 : (process_incoming_companies [rowIndSpace] false geoFound emptyState).2.csvFile =
      some (List.mergeSort [spaceOut] provNameLe) := rfl
  rw [h1, List.mergeSort_singleton]

/-- Witness for C8: the amended invariant applied to the record written by
a concrete successful run starting from an empty dataset. -/
theorem claim8_write_invariant_witness : storedInvariant acmeOut :=
  claim8_write_invariant [rowAcme] geoFound emptyState [acmeOut]
    (by simp [emptyState])
    (by
      have h1 : (process_incoming_companies [rowAcme] false geoFound emptyState).2.csvFile =
          some (List.mergeSort [acmeOut] provNameLe) := rfl
      rw [h1, List.mergeSort_singleton])
    acmeOut (by simp)

end AddCompanies
